import Mathlib

/-! Broadcast hub of `concurrent-go-poker` (`src/main.go`).

A shallow embedding of the hub goroutine `handleMessageUpdates` and of the
broadcaster `sendToAllClients`, followed by theorems about them.

Modelling decisions, all taken from the source:

* `*websocket.Conn` values are only ever compared for identity (they are map
  keys), so a connection is a natural number.
* The two package-level Go maps `clients` and `scores` are finite maps with
  unique keys: `AList`.  `m[k] = v` is `AList.insert`, `delete(m, k)` is
  `AList.erase`, and the one-result read `m[k]` is `AList.lookup` followed by
  the zero value of the element type.
* `for k := range m` visits every key once, in an order Go leaves unspecified.
  Every `range` loop therefore takes a `RangeOrder`: an arbitrary function that
  permutes the key list.  Theorems quantify over all of them.
* `conn.WriteJSON` either succeeds or returns an error; one broadcast pass
  writes to a connection at most once, so the outcomes of a pass are a function
  `Conn → Bool`.
* Dereferencing a nil `*string` / `*int` panics; nothing recovers a panic in
  the hub goroutine, so the panic ends the hub loop (and the process).
* Logging is not modelled.
-/

namespace Poker

/-- Identity of a `*websocket.Conn`. -/
abbrev Conn := Nat

/-- Go: `type MessageType string`. -/
abbrev MessageType := String

/-- Go: `Register MessageType = "register"`. -/
def Register : MessageType := "register"
/-- Go: `Submit MessageType = "submit"`. -/
def Submit : MessageType := "submit"
/-- Go: `Reveal MessageType = "reveal"`. -/
def Reveal : MessageType := "reveal"
/-- Go: `Clear MessageType = "clear"`. -/
def Clear : MessageType := "clear"

/-- Go: `type Data struct { Username *string; PokerPoints *int }`.
A nil pointer is `none`. -/
structure Data where
  Username : Option String
  PokerPoints : Option Int
deriving DecidableEq, Repr

/-- Go: `type Message struct { Type MessageType; Data Data; Conn *websocket.Conn }`.
The field `Type` is spelled `Type_` because `Type` is reserved. -/
structure Message where
  Type_ : MessageType
  Data : Data
  Conn : Conn
deriving DecidableEq, Repr

/-- Go: `clients = make(map[*websocket.Conn]string)`. -/
abbrev ClientMap := AList (fun _ : Conn => String)

/-- Go: `scores = make(map[*websocket.Conn]int)`. -/
abbrev ScoreMap := AList (fun _ : Conn => Int)

/-- The package-level state the hub goroutine works on. -/
structure Hub where
  clients : ClientMap
  scores : ScoreMap

/-- The state at program start: both maps freshly made. -/
def Hub.empty : Hub := ⟨∅, ∅⟩

/-- One possible iteration order of a Go `range` over a map: any permutation
of the keys. -/
structure RangeOrder where
  visit : List Conn → List Conn
  perm : ∀ ks, (visit ks).Perm ks

/-- The order that visits the keys as stored. -/
def RangeOrder.stored : RangeOrder := ⟨fun ks => ks, fun ks => List.Perm.refl ks⟩

/-- Everything outside the hub that one call of `sendToAllClients` depends on:
the order of its two `range` loops and which `WriteJSON` calls succeed. -/
structure Env where
  snapshotOrder : RangeOrder
  writeOrder : RangeOrder
  writeOk : Conn → Bool

/-- An environment in which every write succeeds. -/
def Env.allOk : Env := ⟨RangeOrder.stored, RangeOrder.stored, fun _ => true⟩

/-- An environment in which exactly the writes to `bad` fail. -/
def Env.failing (bad : List Conn) : Env :=
  ⟨RangeOrder.stored, RangeOrder.stored, fun c => !(bad.contains c)⟩

/-- Body of the first loop of `sendToAllClients`:
`username := clients[client]; score := scores[client];
 data := Data{Username: &username, PokerPoints: &score}`.
Both pointers are addresses of locals, hence never nil. -/
def dataFor (h : Hub) (client : Conn) : Data :=
  let username := (h.clients.lookup client).getD ""
  let score := (h.scores.lookup client).getD 0
  { Username := some username, PokerPoints := some score }

/-- What the second loop of `sendToAllClients` changes and emits. -/
structure LoopState where
  clients : ClientMap
  writes : List (Conn × List Data)
  closed : List Conn

/-- Second loop of `sendToAllClients`, over the keys in visiting order:
`err := client.WriteJSON(response); if err != nil { client.Close(); delete(clients, client) }`.
The only key deleted during the iteration is the one being visited, so every
key of the map at loop entry is produced. -/
def writeLoop (writeOk : Conn → Bool) (response : List Data) :
    List Conn → LoopState → LoopState
  | [], st => st
  | client :: rest, st =>
    let st1 : LoopState := { st with writes := st.writes ++ [(client, response)] }
    if writeOk client then
      writeLoop writeOk response rest st1
    else
      writeLoop writeOk response rest
        { st1 with closed := st1.closed ++ [client], clients := st1.clients.erase client }

/-- The observable record of one call of `sendToAllClients`.  `order` is the
order in which the first loop met the clients: `response[i]` was built for
`order[i]`. -/
structure Pass where
  order : List Conn
  response : List Data
  writes : List (Conn × List Data)
  closed : List Conn
deriving DecidableEq

/-- Go: `func sendToAllClients()`. -/
def sendToAllClients (env : Env) (h : Hub) : Hub × Pass :=
  let order := env.snapshotOrder.visit h.clients.keys
  let response := order.map (dataFor h)
  let st := writeLoop env.writeOk response (env.writeOrder.visit h.clients.keys)
    { clients := h.clients, writes := [], closed := [] }
  ({ h with clients := st.clients },
   { order := order, response := response, writes := st.writes, closed := st.closed })

/-- The run-time panics the hub can raise. -/
inductive Fault where
  | nilDereference
deriving DecidableEq, Repr

/-- Body of the loop of `handleMessageUpdates`: the `switch msg.Type`.
The result holds the new state and the record of the broadcast, if one ran.
`*msg.Data.Username` and `*msg.Data.PokerPoints` are evaluated (for the debug
log) before the map is written. -/
def handleMessage (env : Env) (h : Hub) (msg : Message) : Except Fault (Hub × Option Pass) :=
  if msg.Type_ = Register then
    match msg.Data.Username with
    | none => Except.error Fault.nilDereference
    | some username =>
      let r := sendToAllClients env { h with clients := h.clients.insert msg.Conn username }
      Except.ok (r.1, some r.2)
  else if msg.Type_ = Submit then
    match msg.Data.PokerPoints with
    | none => Except.error Fault.nilDereference
    | some pokerPoints =>
      let r := sendToAllClients env { h with scores := h.scores.insert msg.Conn pokerPoints }
      Except.ok (r.1, some r.2)
  else if msg.Type_ = Reveal then
    Except.ok (h, none)
  else if msg.Type_ = Clear then
    Except.ok (h, none)
  else
    Except.ok (h, none)

/-- What a run of the hub loop over a finite prefix of the channel leaves:
the state, the broadcasts in order, and the panic that ended it, if any. -/
structure Run where
  hub : Hub
  passes : List Pass
  fault : Option Fault

/-- Go: `func handleMessageUpdates()`, `for msg := range incomingMessages`,
over the messages received so far, each paired with the environment of its
broadcast.  A panic stops the loop. -/
def handleMessageUpdates : Hub → List (Env × Message) → Run
  | h, [] => { hub := h, passes := [], fault := none }
  | h, (env, msg) :: rest =>
    match handleMessage env h msg with
    | Except.error f => { hub := h, passes := [], fault := some f }
    | Except.ok (h1, p) =>
      let r := handleMessageUpdates h1 rest
      { r with passes := p.toList ++ r.passes }

/-- The elements of the response of a pass that were built for connection `c`. -/
def Pass.entriesFor (p : Pass) (c : Conn) : List Data :=
  ((p.order.zip p.response).filter (fun x => x.1 = c)).map (fun x => x.2)

/-- The connections a pass attempted to write to. -/
def Pass.targets (p : Pass) : List Conn := p.writes.map (fun w => w.1)

/-- Go literal `Message{Type: Register, Data: Data{Username: &name}, Conn: c}`. -/
def registerMsg (c : Conn) (name : String) : Message :=
  { Type_ := Register, Data := { Username := some name, PokerPoints := none }, Conn := c }

/-- Go literal `Message{Type: Submit, Data: Data{PokerPoints: &e}, Conn: c}`. -/
def submitMsg (c : Conn) (e : Int) : Message :=
  { Type_ := Submit, Data := { Username := none, PokerPoints := some e }, Conn := c }

/-- Go literal `Message{Type: t, Conn: c}`: a frame without `data`. -/
def bareMsg (t : MessageType) (c : Conn) : Message :=
  { Type_ := t, Data := { Username := none, PokerPoints := none }, Conn := c }

/-- The hub after connection 1 registered as "alice", connection 2 as "bob",
and they submitted 3 and 5, all writes succeeding. -/
def twoSubmitted : Hub :=
  (handleMessageUpdates Hub.empty
    [(Env.allOk, registerMsg 1 "alice"), (Env.allOk, registerMsg 2 "bob"),
     (Env.allOk, submitMsg 1 3), (Env.allOk, submitMsg 2 5)]).hub

/-- The snapshot a broadcast builds when its first loop visits in order `o`. -/
def snapshot (o : RangeOrder) (h : Hub) : List Data :=
  (o.visit h.clients.keys).map (dataFor h)

/-- The estimate of the last message in `evs` that connection `c` sent. -/
def lastSubmitFrom (c : Conn) : List (Env × Message) → Option Int
  | [] => none
  | x :: rest =>
    match lastSubmitFrom c rest with
    | some e => some e
    | none => if x.2.Conn = c then x.2.Data.PokerPoints else none

/-- The hub after connections 1 and 2 both registered as "alice" and the
unregistered connection 3 submitted 8, all writes succeeding. -/
def sameName : Hub :=
  (handleMessageUpdates Hub.empty
    [(Env.allOk, registerMsg 1 "alice"), (Env.allOk, registerMsg 2 "alice"),
     (Env.allOk, submitMsg 3 8)]).hub

/-! ## Lemmas on the write loop -/

theorem writeLoop_writes (ok : Conn → Bool) (resp : List Data) (ks : List Conn) (st : LoopState) :
    (writeLoop ok resp ks st).writes = st.writes ++ ks.map (fun c => (c, resp)) := by
  induction ks generalizing st with
  | nil => simp [writeLoop]
  | cons k ks ih =>
    unfold writeLoop
    by_cases hk : ok k = true
    · simp [hk, ih]
    · simp [hk, ih]

theorem writeLoop_closed (ok : Conn → Bool) (resp : List Data) (ks : List Conn) (st : LoopState) :
    (writeLoop ok resp ks st).closed = st.closed ++ ks.filter (fun c => !ok c) := by
  induction ks generalizing st with
  | nil => simp [writeLoop]
  | cons k ks ih =>
    unfold writeLoop
    by_cases hk : ok k = true
    · simp [hk, ih]
    · simp [hk, ih]

theorem writeLoop_lookup (ok : Conn → Bool) (resp : List Data) (ks : List Conn) (st : LoopState)
    (c : Conn) :
    (writeLoop ok resp ks st).clients.lookup c =
      if c ∈ ks ∧ ok c = false then none else st.clients.lookup c := by
  induction ks generalizing st with
  | nil => simp [writeLoop]
  | cons k ks ih =>
    unfold writeLoop
    by_cases hk : ok k = true
    · by_cases hc : c = k
      · subst hc; simp [hk, ih]
      · simp [hk, ih, hc]
    · by_cases hc : c = k
      · subst hc; simp [hk, ih, AList.lookup_erase]
      · simp [hk, ih, hc, AList.lookup_erase_ne hc]

theorem writeLoop_allOk (ok : Conn → Bool) (hok : ∀ c, ok c = true) (resp : List Data)
    (ks : List Conn) (st : LoopState) :
    (writeLoop ok resp ks st).clients = st.clients := by
  induction ks generalizing st with
  | nil => simp [writeLoop]
  | cons k ks ih =>
    unfold writeLoop
    simp [hok k, ih]

/-! ## Lemmas on one broadcast pass -/

theorem send_scores (env : Env) (h : Hub) : (sendToAllClients env h).1.scores = h.scores := rfl

theorem send_order (env : Env) (h : Hub) :
    (sendToAllClients env h).2.order = env.snapshotOrder.visit h.clients.keys := rfl

theorem send_response (env : Env) (h : Hub) :
    (sendToAllClients env h).2.response = snapshot env.snapshotOrder h := rfl

theorem send_writes (env : Env) (h : Hub) :
    (sendToAllClients env h).2.writes =
      (env.writeOrder.visit h.clients.keys).map
        (fun c => (c, (sendToAllClients env h).2.response)) := by
  simp [sendToAllClients, writeLoop_writes]

theorem send_targets (env : Env) (h : Hub) :
    (sendToAllClients env h).2.targets = env.writeOrder.visit h.clients.keys := by
  simp [Pass.targets, send_writes, Function.comp_def]

theorem send_closed (env : Env) (h : Hub) :
    (sendToAllClients env h).2.closed =
      (env.writeOrder.visit h.clients.keys).filter (fun c => !env.writeOk c) := by
  simp [sendToAllClients, writeLoop_closed]

theorem mem_visit (o : RangeOrder) (m : ClientMap) (c : Conn) :
    c ∈ o.visit m.keys ↔ c ∈ m := by
  rw [AList.mem_keys]
  exact (o.perm m.keys).mem_iff

theorem nodup_visit (o : RangeOrder) (m : ClientMap) : (o.visit m.keys).Nodup :=
  (o.perm m.keys).nodup_iff.mpr m.keys_nodup

theorem send_lookup (env : Env) (h : Hub) (c : Conn) :
    (sendToAllClients env h).1.clients.lookup c =
      if env.writeOk c = false then none else h.clients.lookup c := by
  have hl := writeLoop_lookup env.writeOk (snapshot env.snapshotOrder h)
    (env.writeOrder.visit h.clients.keys) { clients := h.clients, writes := [], closed := [] } c
  simp only [mem_visit] at hl
  show (writeLoop _ _ _ _).clients.lookup c = _
  erw [hl]
  by_cases hok : env.writeOk c = false
  · by_cases hc : c ∈ h.clients
    · simp [hok, hc]
    · simp [hok, hc, AList.lookup_eq_none.mpr hc]
  · simp [hok]

theorem send_allOk (env : Env) (hok : ∀ c, env.writeOk c = true) (h : Hub) :
    (sendToAllClients env h).1 = h := by
  cases h with
  | mk cl sc =>
    simp only [sendToAllClients]
    rw [writeLoop_allOk env.writeOk hok]

theorem filter_zip_map (f : Conn → Data) (c : Conn) (l : List Conn) :
    ((l.zip (l.map f)).filter (fun x => x.1 = c)).map (fun x => x.2) =
      (l.filter (fun k => k = c)).map f := by
  induction l with
  | nil => rfl
  | cons k l ih =>
    by_cases hk : k = c
    · simp [List.filter_cons, hk, ih]
    · simp [List.filter_cons, hk, ih]

theorem filter_eq_of_nodup (c : Conn) (l : List Conn) (hl : l.Nodup) :
    l.filter (fun k => k = c) = if c ∈ l then [c] else [] := by
  induction l with
  | nil => rfl
  | cons k l ih =>
    have hnd := List.nodup_cons.mp hl
    by_cases hk : k = c
    · subst hk
      have : k ∉ l := hnd.1
      simp [List.filter_cons, ih hnd.2, this]
    · have hck : ¬ c = k := fun e => hk e.symm
      simp [List.filter_cons, hk, hck, ih hnd.2]

theorem send_entriesFor (env : Env) (h : Hub) (c : Conn) :
    (sendToAllClients env h).2.entriesFor c = if c ∈ h.clients then [dataFor h c] else [] := by
  have h1 : (sendToAllClients env h).2.entriesFor c =
      ((env.snapshotOrder.visit h.clients.keys).filter (fun k => k = c)).map (dataFor h) :=
    filter_zip_map (dataFor h) c _
  rw [h1, filter_eq_of_nodup c _ (nodup_visit _ _)]
  by_cases hc : c ∈ h.clients
  · simp [hc, mem_visit]
  · simp [hc, mem_visit]

/-! ## Lemmas on one hub step -/

theorem handle_register (env : Env) (h : Hub) (msg : Message) (name : String)
    (ht : msg.Type_ = Register) (hn : msg.Data.Username = some name) :
    handleMessage env h msg =
      Except.ok
        ((sendToAllClients env { h with clients := h.clients.insert msg.Conn name }).1,
         some (sendToAllClients env { h with clients := h.clients.insert msg.Conn name }).2) := by
  simp [handleMessage, ht, hn]

theorem handle_submit (env : Env) (h : Hub) (msg : Message) (e : Int)
    (ht : msg.Type_ = Submit) (hp : msg.Data.PokerPoints = some e) :
    handleMessage env h msg =
      Except.ok
        ((sendToAllClients env { h with scores := h.scores.insert msg.Conn e }).1,
         some (sendToAllClients env { h with scores := h.scores.insert msg.Conn e }).2) := by
  have hne : ¬ Submit = Register := by decide
  simp [handleMessage, ht, hp, hne]

theorem handle_silent (env : Env) (h : Hub) (msg : Message)
    (h1 : msg.Type_ ≠ Register) (h2 : msg.Type_ ≠ Submit) :
    handleMessage env h msg = Except.ok (h, none) := by
  simp [handleMessage, h1, h2]

/-! ## Lemmas on runs of the hub loop -/

theorem run_cons_ok (env : Env) (msg : Message) (rest : List (Env × Message)) (h h1 : Hub)
    (p : Option Pass) (hstep : handleMessage env h msg = Except.ok (h1, p)) :
    handleMessageUpdates h ((env, msg) :: rest) =
      { hub := (handleMessageUpdates h1 rest).hub,
        passes := p.toList ++ (handleMessageUpdates h1 rest).passes,
        fault := (handleMessageUpdates h1 rest).fault } := by
  simp [handleMessageUpdates, hstep]

theorem run_append (a b : List (Env × Message)) (h : Hub)
    (hf : (handleMessageUpdates h a).fault = none) :
    handleMessageUpdates h (a ++ b) =
      { hub := (handleMessageUpdates (handleMessageUpdates h a).hub b).hub,
        passes := (handleMessageUpdates h a).passes ++
          (handleMessageUpdates (handleMessageUpdates h a).hub b).passes,
        fault := (handleMessageUpdates (handleMessageUpdates h a).hub b).fault } := by
  induction a generalizing h with
  | nil => simp [handleMessageUpdates]
  | cons x a ih =>
    obtain ⟨env, msg⟩ := x
    cases hstep : handleMessage env h msg with
    | error f => simp [handleMessageUpdates, hstep] at hf
    | ok r =>
      obtain ⟨h1, p⟩ := r
      rw [run_cons_ok env msg a h h1 p hstep] at hf
      rw [List.cons_append, run_cons_ok env msg (a ++ b) h h1 p hstep,
        run_cons_ok env msg a h h1 p hstep, ih h1 hf]
      simp

theorem run_registers (c : Conn) (rs : List (Env × Message)) (h : Hub)
    (hrs : ∀ x ∈ rs, x.2.Type_ = Register ∧ x.2.Conn = c ∧ x.2.Data.Username ≠ none ∧
      ∀ k, x.1.writeOk k = true) :
    (handleMessageUpdates h rs).fault = none ∧
      (handleMessageUpdates h rs).hub.scores = h.scores := by
  induction rs generalizing h with
  | nil => simp [handleMessageUpdates]
  | cons x rs ih =>
    obtain ⟨env, msg⟩ := x
    obtain ⟨ht, -, hn, hok⟩ := hrs (env, msg) (List.mem_cons_self _ _)
    obtain ⟨name, hname⟩ := Option.ne_none_iff_exists'.mp hn
    rw [run_cons_ok env msg rs h _ _ (handle_register env h msg name ht hname)]
    have := ih (sendToAllClients env { h with clients := h.clients.insert msg.Conn name }).1
      (fun y hy => hrs y (List.mem_cons_of_mem _ hy))
    exact ⟨this.1, this.2.trans (send_scores _ _)⟩

theorem run_submits (evs : List (Env × Message)) (h : Hub)
    (hev : ∀ x ∈ evs, x.2.Type_ = Submit ∧ x.2.Data.PokerPoints ≠ none ∧
      ∀ k, x.1.writeOk k = true) :
    (handleMessageUpdates h evs).fault = none ∧
      (handleMessageUpdates h evs).hub.clients = h.clients ∧
      ∀ c, (handleMessageUpdates h evs).hub.scores.lookup c =
        match lastSubmitFrom c evs with
        | some e => some e
        | none => h.scores.lookup c := by
  induction evs generalizing h with
  | nil => simp [handleMessageUpdates, lastSubmitFrom]
  | cons x evs ih =>
    obtain ⟨env, msg⟩ := x
    obtain ⟨ht, hn, hok⟩ := hev (env, msg) (List.mem_cons_self _ _)
    obtain ⟨e, he⟩ := Option.ne_none_iff_exists'.mp hn
    simp only at ht he hok
    rw [run_cons_ok env msg evs h _ _ (handle_submit env h msg e ht he)]
    rw [send_allOk env hok]
    obtain ⟨i1, i2, i3⟩ := ih { h with scores := h.scores.insert msg.Conn e }
      (fun y hy => hev y (List.mem_cons_of_mem _ hy))
    refine ⟨i1, i2, fun c => ?_⟩
    simp only [i3 c, lastSubmitFrom]
    cases hl : lastSubmitFrom c evs with
    | some v => rfl
    | none =>
      by_cases hc : msg.Conn = c
      · subst hc; simp [he, AList.lookup_insert]
      · have hc2 : c ≠ msg.Conn := fun q => hc q.symm
        simp [hc, AList.lookup_insert_ne hc2]

theorem run_single (env : Env) (msg : Message) (h h1 : Hub) (p : Option Pass)
    (hstep : handleMessage env h msg = Except.ok (h1, p)) :
    handleMessageUpdates h [(env, msg)] = { hub := h1, passes := p.toList, fault := none } := by
  rw [run_cons_ok env msg [] h h1 p hstep]
  simp [handleMessageUpdates]

theorem run_registers_last (c : Conn) (rs : List (Env × Message)) (er : Env) (mr : Message)
    (name : String) (h : Hub)
    (hrs : ∀ x ∈ rs, x.2.Type_ = Register ∧ x.2.Conn = c ∧ x.2.Data.Username ≠ none ∧
      ∀ k, x.1.writeOk k = true)
    (hmr : mr.Type_ = Register ∧ mr.Conn = c ∧ mr.Data.Username = some name)
    (her : ∀ k, er.writeOk k = true) :
    (handleMessageUpdates h (rs ++ [(er, mr)])).fault = none ∧
      (handleMessageUpdates h (rs ++ [(er, mr)])).hub.clients.lookup c = some name := by
  obtain ⟨ht, hc, hn⟩ := hmr
  rw [run_append rs _ h (run_registers c rs h hrs).1,
    run_single er mr _ _ _ (handle_register er _ mr name ht hn), send_allOk er her]
  simp [hc, AList.lookup_insert]

theorem handle_cases (env : Env) (h h1 : Hub) (msg : Message) (p : Option Pass)
    (hstep : handleMessage env h msg = Except.ok (h1, p)) :
    (∃ name, msg.Type_ = Register ∧
      h1 = (sendToAllClients env { h with clients := h.clients.insert msg.Conn name }).1 ∧
      p = some (sendToAllClients env { h with clients := h.clients.insert msg.Conn name }).2) ∨
    (∃ e,
      h1 = (sendToAllClients env { h with scores := h.scores.insert msg.Conn e }).1 ∧
      p = some (sendToAllClients env { h with scores := h.scores.insert msg.Conn e }).2) ∨
    (h1 = h ∧ p = none) := by
  by_cases ht : msg.Type_ = Register
  · cases hn : msg.Data.Username with
    | none => simp [handleMessage, ht, hn] at hstep
    | some name =>
      rw [handle_register env h msg name ht hn] at hstep
      injection hstep with hstep
      injection hstep with ha hb
      exact Or.inl ⟨name, ht, ha.symm, hb.symm⟩
  · by_cases hs : msg.Type_ = Submit
    · cases hn : msg.Data.PokerPoints with
      | none =>
        have hne : ¬ Submit = Register := by decide
        simp [handleMessage, hs, hn, hne] at hstep
      | some e =>
        rw [handle_submit env h msg e hs hn] at hstep
        injection hstep with hstep
        injection hstep with ha hb
        exact Or.inr (Or.inl ⟨e, ha.symm, hb.symm⟩)
    · rw [handle_silent env h msg ht hs] at hstep
      injection hstep with hstep
      injection hstep with ha hb
      exact Or.inr (Or.inr ⟨ha.symm, hb.symm⟩)

theorem send_not_mem (env : Env) (h : Hub) (c : Conn)
    (hc : c ∉ h.clients ∨ env.writeOk c = false) :
    c ∉ (sendToAllClients env h).1.clients := by
  rw [← AList.lookup_eq_none, send_lookup]
  rcases hc with hc | hc
  · simp [AList.lookup_eq_none.mpr hc]
  · simp [hc]

theorem step_evicts (env : Env) (h h1 : Hub) (msg : Message) (p : Option Pass) (c : Conn)
    (hstep : handleMessage env h msg = Except.ok (h1, p))
    (hfail : env.writeOk c = false) (hc : c ∉ h.clients) : c ∉ h1.clients := by
  rcases handle_cases env h h1 msg p hstep with ⟨name, -, rfl, -⟩ | ⟨e, rfl, -⟩ | ⟨rfl, -⟩
  · exact send_not_mem env _ c (Or.inr hfail)
  · exact send_not_mem env _ c (Or.inr hfail)
  · exact hc

theorem step_keeps_out (env : Env) (h h1 : Hub) (msg : Message) (p : Option Pass) (c : Conn)
    (hstep : handleMessage env h msg = Except.ok (h1, p))
    (hmsg : ¬ (msg.Type_ = Register ∧ msg.Conn = c)) (hc : c ∉ h.clients) :
    c ∉ h1.clients ∧ ∀ q ∈ p, c ∉ q.order := by
  rcases handle_cases env h h1 msg p hstep with ⟨name, ht, rfl, rfl⟩ | ⟨e, rfl, rfl⟩ | ⟨rfl, rfl⟩
  · have hne : c ≠ msg.Conn := fun q => hmsg ⟨ht, q.symm⟩
    have hc2 : c ∉ h.clients.insert msg.Conn name := by
      rw [AList.mem_insert]; exact fun q => q.elim hne hc
    refine ⟨send_not_mem env _ c (Or.inl hc2), fun q hq => ?_⟩
    rw [Option.mem_def, Option.some_inj] at hq
    subst hq
    rw [send_order, mem_visit]; exact hc2
  · refine ⟨send_not_mem env _ c (Or.inl hc), fun q hq => ?_⟩
    rw [Option.mem_def, Option.some_inj] at hq
    subst hq
    rw [send_order, mem_visit]; exact hc
  · exact ⟨hc, fun q hq => by simp at hq⟩

theorem run_evicts (c : Conn) (evs : List (Env × Message)) (h : Hub)
    (hfail : ∀ x ∈ evs, x.1.writeOk c = false) (hc : c ∉ h.clients) :
    c ∉ (handleMessageUpdates h evs).hub.clients := by
  induction evs generalizing h with
  | nil => simpa [handleMessageUpdates] using hc
  | cons x evs ih =>
    obtain ⟨env, msg⟩ := x
    cases hstep : handleMessage env h msg with
    | error f => simpa [handleMessageUpdates, hstep] using hc
    | ok r =>
      obtain ⟨h1, p⟩ := r
      rw [run_cons_ok env msg evs h h1 p hstep]
      exact ih h1 (fun y hy => hfail y (List.mem_cons_of_mem _ hy))
        (step_evicts env h h1 msg p c hstep (hfail (env, msg) (List.mem_cons_self _ _)) hc)

theorem run_keeps_out (c : Conn) (evs : List (Env × Message)) (h : Hub)
    (hmsg : ∀ x ∈ evs, ¬ (x.2.Type_ = Register ∧ x.2.Conn = c)) (hc : c ∉ h.clients) :
    ∀ q ∈ (handleMessageUpdates h evs).passes, c ∉ q.order := by
  induction evs generalizing h with
  | nil => simp [handleMessageUpdates]
  | cons x evs ih =>
    obtain ⟨env, msg⟩ := x
    cases hstep : handleMessage env h msg with
    | error f => simp [handleMessageUpdates, hstep]
    | ok r =>
      obtain ⟨h1, p⟩ := r
      rw [run_cons_ok env msg evs h h1 p hstep]
      obtain ⟨k1, k2⟩ := step_keeps_out env h h1 msg p c hstep
        (hmsg (env, msg) (List.mem_cons_self _ _)) hc
      intro q hq
      rcases List.mem_append.mp hq with hq | hq
      · exact k2 q (by simpa using hq)
      · exact ih h1 (fun y hy => hmsg y (List.mem_cons_of_mem _ hy)) k1 q hq

theorem entriesFor_nil_of_not_mem (p : Pass) (c : Conn) (hc : c ∉ p.order) :
    p.entriesFor c = [] := by
  unfold Pass.entriesFor
  rw [List.map_eq_nil_iff, List.filter_eq_nil_iff]
  intro x hx
  have := (List.of_mem_zip hx).1
  simp only [decide_eq_true_eq]
  exact fun q => hc (q ▸ this)

theorem step_scores (env : Env) (h h1 : Hub) (msg : Message) (p : Option Pass)
    (hstep : handleMessage env h msg = Except.ok (h1, p)) :
    h1.scores = h.scores ∨
      (msg.Type_ = Submit ∧ ∃ e, msg.Data.PokerPoints = some e ∧
        h1.scores = h.scores.insert msg.Conn e) := by
  by_cases ht : msg.Type_ = Register
  · cases hn : msg.Data.Username with
    | none => simp [handleMessage, ht, hn] at hstep
    | some name =>
      rw [handle_register env h msg name ht hn] at hstep
      injection hstep with hstep
      injection hstep with ha hb
      exact Or.inl (ha ▸ rfl)
  · by_cases hs : msg.Type_ = Submit
    · cases hn : msg.Data.PokerPoints with
      | none =>
        have hne : ¬ Submit = Register := by decide
        simp [handleMessage, hs, hn, hne] at hstep
      | some e =>
        rw [handle_submit env h msg e hs hn] at hstep
        injection hstep with hstep
        injection hstep with ha hb
        exact Or.inr ⟨hs, e, rfl, ha ▸ rfl⟩
    · rw [handle_silent env h msg ht hs] at hstep
      injection hstep with hstep
      injection hstep with ha hb
      exact Or.inl (ha ▸ rfl)

theorem step_scores_mem (env : Env) (h h1 : Hub) (msg : Message) (p : Option Pass) (c : Conn)
    (hstep : handleMessage env h msg = Except.ok (h1, p)) (hc : c ∈ h.scores) :
    c ∈ h1.scores := by
  rcases step_scores env h h1 msg p hstep with hs | ⟨-, e, -, hs⟩
  · rw [hs]; exact hc
  · rw [hs, AList.mem_insert]; exact Or.inr hc

theorem run_scores_mem (c : Conn) (evs : List (Env × Message)) (h : Hub) (hc : c ∈ h.scores) :
    c ∈ (handleMessageUpdates h evs).hub.scores := by
  induction evs generalizing h with
  | nil => simpa [handleMessageUpdates] using hc
  | cons x evs ih =>
    obtain ⟨env, msg⟩ := x
    cases hstep : handleMessage env h msg with
    | error f => simpa [handleMessageUpdates, hstep] using hc
    | ok r =>
      obtain ⟨h1, p⟩ := r
      rw [run_cons_ok env msg evs h h1 p hstep]
      exact ih h1 (step_scores_mem env h h1 msg p c hstep hc)

theorem two_le_countP (q : Conn → Bool) (a b : Conn) (hab : a ≠ b) (hqa : q a = true)
    (hqb : q b = true) (l : List Conn) (ha : a ∈ l) (hb : b ∈ l) : 2 ≤ l.countP q := by
  induction l with
  | nil => simp at ha
  | cons k l ih =>
    by_cases hka : k = a
    · subst hka
      have hbl : b ∈ l := by
        rcases List.mem_cons.mp hb with hb | hb
        · exact absurd hb.symm hab
        · exact hb
      have hpos : 0 < l.countP q := List.countP_pos_iff.mpr ⟨b, hbl, hqb⟩
      rw [List.countP_cons_of_pos _ _ hqa]
      omega
    · by_cases hkb : k = b
      · subst hkb
        have hal : a ∈ l := by
          rcases List.mem_cons.mp ha with ha | ha
          · exact absurd ha.symm hka
          · exact ha
        have hpos : 0 < l.countP q := List.countP_pos_iff.mpr ⟨a, hal, hqa⟩
        rw [List.countP_cons_of_pos _ _ hqb]
        omega
      · have hal : a ∈ l := by
          rcases List.mem_cons.mp ha with ha | ha
          · exact absurd ha.symm hka
          · exact ha
        have hbl : b ∈ l := by
          rcases List.mem_cons.mp hb with hb | hb
          · exact absurd hb.symm hkb
          · exact hb
        have := ih hal hbl
        have hle : l.countP q ≤ (k :: l).countP q := by
          rw [List.countP_cons]; omega
        omega

/-! ## The claims -/

/-- C1: for every starting state and connection `c`, after one or more
Register events from `c` (the last one carrying `name`) followed by one or more
Submit events from `c` (the last one carrying `e`), all writes succeeding, the
hub loop has not stopped and the snapshot of the last broadcast holds exactly
one entry built for `c`, with username `name` and pokerPoints `e`.  The
snapshot is built before the last broadcast writes, so the outcome of those
writes plays no part. -/
theorem C1_register_then_submit_snapshot (h : Hub) (c : Conn)
    (rs ss : List (Env × Message)) (er es : Env) (mr ms : Message) (name : String) (e : Int)
    (hrs : ∀ x ∈ rs, x.2.Type_ = Register ∧ x.2.Conn = c ∧ x.2.Data.Username ≠ none ∧
      ∀ k, x.1.writeOk k = true)
    (hmr : mr.Type_ = Register ∧ mr.Conn = c ∧ mr.Data.Username = some name)
    (her : ∀ k, er.writeOk k = true)
    (hss : ∀ x ∈ ss, x.2.Type_ = Submit ∧ x.2.Conn = c ∧ x.2.Data.PokerPoints ≠ none ∧
      ∀ k, x.1.writeOk k = true)
    (hms : ms.Type_ = Submit ∧ ms.Conn = c ∧ ms.Data.PokerPoints = some e) :
    (handleMessageUpdates h ((rs ++ [(er, mr)]) ++ (ss ++ [(es, ms)]))).fault = none ∧
      ∃ p, (handleMessageUpdates h ((rs ++ [(er, mr)]) ++ (ss ++ [(es, ms)]))).passes.getLast?
          = some p ∧
        p.entriesFor c = [{ Username := some name, PokerPoints := some e }] := by
  obtain ⟨hf1, hl1⟩ := run_registers_last c rs er mr name h hrs hmr her
  obtain ⟨ht, hc, hp⟩ := hms
  obtain ⟨hf2, hcl2, -⟩ := run_submits ss (handleMessageUpdates h (rs ++ [(er, mr)])).hub
    (fun x hx => ⟨(hss x hx).1, (hss x hx).2.2.1, (hss x hx).2.2.2⟩)
  rw [run_append _ _ h hf1, run_append ss _ _ hf2,
    run_single es ms _ _ _ (handle_submit es _ ms e ht hp)]
  refine ⟨rfl, (sendToAllClients es
    { (handleMessageUpdates (handleMessageUpdates h (rs ++ [(er, mr)])).hub ss).hub with
      scores := (handleMessageUpdates (handleMessageUpdates h (rs ++ [(er, mr)])).hub
        ss).hub.scores.insert ms.Conn e }).2, ?_, ?_⟩
  · simp only [Option.toList, ← List.append_assoc, List.getLast?_append, List.getLast?_singleton]
    rfl
  rw [send_entriesFor]
  have hmem : c ∈ (handleMessageUpdates (handleMessageUpdates h (rs ++ [(er, mr)])).hub
      ss).hub.clients := by
    rw [hcl2, ← AList.lookup_isSome, hl1]; rfl
  rw [if_pos hmem]
  simp [dataFor, hcl2, hl1, hc, AList.lookup_insert]

/-- Witness for C1: connection 1 registers as "al", then as "alice", then
submits 3, then 5, on the empty hub. -/
theorem C1_register_then_submit_snapshot_witness :
    (handleMessageUpdates Hub.empty
        (([(Env.allOk, registerMsg 1 "al")] ++ [(Env.allOk, registerMsg 1 "alice")]) ++
          ([(Env.allOk, submitMsg 1 3)] ++ [(Env.allOk, submitMsg 1 5)]))).fault = none ∧
      ∃ p, (handleMessageUpdates Hub.empty
        (([(Env.allOk, registerMsg 1 "al")] ++ [(Env.allOk, registerMsg 1 "alice")]) ++
          ([(Env.allOk, submitMsg 1 3)] ++ [(Env.allOk, submitMsg 1 5)]))).passes.getLast?
          = some p ∧
        p.entriesFor 1 = [{ Username := some "alice", PokerPoints := some 5 }] :=
  C1_register_then_submit_snapshot Hub.empty 1 [(Env.allOk, registerMsg 1 "al")]
    [(Env.allOk, submitMsg 1 3)] Env.allOk Env.allOk (registerMsg 1 "alice") (submitMsg 1 5)
    "alice" 5
    (by simp [registerMsg, Env.allOk]) ⟨rfl, rfl, rfl⟩ (fun _ => rfl)
    (by simp [submitMsg, Env.allOk]) ⟨rfl, rfl, rfl⟩

/-- C2, as stated, fails: on the empty hub, after connection 1 registers as
"alice" (write succeeding) the broadcast snapshot is `[{alice, 0}]`, not
`[{alice, null}]`. -/
theorem C2_counterexample :
    (handleMessageUpdates Hub.empty [(Env.allOk, registerMsg 1 "alice")]).passes.map
        (fun p => p.response) = [[{ Username := some "alice", PokerPoints := some 0 }]] ∧
      (handleMessageUpdates Hub.empty [(Env.allOk, registerMsg 1 "alice")]).passes.map
        (fun p => p.response) ≠ [[{ Username := some "alice", PokerPoints := none }]] := by
  decide

/-- C2, amended: from the empty hub, with the writes of the first two
broadcasts succeeding, A registering "alice" broadcasts exactly
`[{alice, 0}]`; B registering "bob" broadcasts two entries, alice with 0 and
bob with 0; A submitting 5 broadcasts two entries, alice with 5 and bob with 0.
In general a registered connection without a stored estimate is reported with
pokerPoints 0, never null. -/
theorem C2_unset_estimate_reported_as_zero (a b : Conn) (hab : a ≠ b) (e1 e2 e3 : Env)
    (h1 : ∀ k, e1.writeOk k = true) (h2 : ∀ k, e2.writeOk k = true) :
    (handleMessageUpdates Hub.empty
        [(e1, registerMsg a "alice"), (e2, registerMsg b "bob"), (e3, submitMsg a 5)]).fault
        = none ∧
      (∃ p1 p2 p3,
        (handleMessageUpdates Hub.empty
          [(e1, registerMsg a "alice"), (e2, registerMsg b "bob"), (e3, submitMsg a 5)]).passes
          = [p1, p2, p3] ∧
        p1.response = [{ Username := some "alice", PokerPoints := some 0 }] ∧
        p2.response.length = 2 ∧
        p2.entriesFor a = [{ Username := some "alice", PokerPoints := some 0 }] ∧
        p2.entriesFor b = [{ Username := some "bob", PokerPoints := some 0 }] ∧
        p3.response.length = 2 ∧
        p3.entriesFor a = [{ Username := some "alice", PokerPoints := some 5 }] ∧
        p3.entriesFor b = [{ Username := some "bob", PokerPoints := some 0 }]) ∧
      (∀ (h : Hub) (env : Env) (c : Conn) (name : String),
        h.clients.lookup c = some name → h.scores.lookup c = none →
        (sendToAllClients env h).2.entriesFor c =
          [{ Username := some name, PokerPoints := some 0 }]) ∧
      (∀ (h : Hub) (env : Env), ∀ d ∈ (sendToAllClients env h).2.response,
        d.PokerPoints ≠ none) := by
  have hba : b ≠ a := fun q => hab q.symm
  have hk1 : (AList.insert a "alice" (∅ : ClientMap)).keys = [a] := by
    simp [AList.keys_insert]
  have hk2 : (AList.insert b "bob" (AList.insert a "alice" (∅ : ClientMap))).keys = [b, a] := by
    simp [AList.keys_insert, List.erase_cons, hab]
  have hma : a ∈ AList.insert b "bob" (AList.insert a "alice" (∅ : ClientMap)) := by
    simp [-AList.insert_empty, AList.mem_insert]
  have hmb : b ∈ AList.insert b "bob" (AList.insert a "alice" (∅ : ClientMap)) := by
    simp [-AList.insert_empty, AList.mem_insert]
  rw [run_cons_ok e1 _ _ _ _ _ (handle_register e1 _ (registerMsg a "alice") "alice" rfl rfl),
    send_allOk e1 h1,
    run_cons_ok e2 _ _ _ _ _ (handle_register e2 _ (registerMsg b "bob") "bob" rfl rfl),
    send_allOk e2 h2,
    run_single e3 _ _ _ _ (handle_submit e3 _ (submitMsg a 5) 5 rfl rfl)]
  refine ⟨rfl, ⟨_, _, _, rfl, ?_, ?_, ?_, ?_, ?_, ?_, ?_⟩, ?_, ?_⟩
  · have hv : e1.snapshotOrder.visit [a] = [a] :=
      List.perm_singleton.mp (e1.snapshotOrder.perm [a])
    simp only [send_response, snapshot, registerMsg, Hub.empty]
    erw [hk1, hv]
    simp [-AList.insert_empty, dataFor, AList.lookup_insert]
  · simp only [send_response, snapshot, registerMsg, Hub.empty, List.length_map]
    erw [hk2, (e2.snapshotOrder.perm [b, a]).length_eq]
    rfl
  · rw [send_entriesFor]
    simp only [registerMsg, Hub.empty]
    rw [if_pos hma]
    simp [-AList.insert_empty, dataFor, AList.lookup_insert, AList.lookup_insert_ne hab]
  · rw [send_entriesFor]
    simp only [registerMsg, Hub.empty]
    rw [if_pos hmb]
    simp [-AList.insert_empty, dataFor, AList.lookup_insert]
  · simp only [send_response, snapshot, registerMsg, submitMsg, Hub.empty, List.length_map]
    erw [hk2, (e3.snapshotOrder.perm [b, a]).length_eq]
    rfl
  · rw [send_entriesFor]
    simp only [registerMsg, submitMsg, Hub.empty]
    rw [if_pos hma]
    simp [-AList.insert_empty, dataFor, AList.lookup_insert, AList.lookup_insert_ne hab]
  · rw [send_entriesFor]
    simp only [registerMsg, submitMsg, Hub.empty]
    rw [if_pos hmb]
    simp [-AList.insert_empty, dataFor, AList.lookup_insert, AList.lookup_insert_ne hba]
  · intro h env c name hn hs
    rw [send_entriesFor, if_pos (AList.lookup_isSome.mp (by rw [hn]; rfl))]
    simp [dataFor, hn, hs]
  · intro h env d hd
    rw [send_response, snapshot, List.mem_map] at hd
    obtain ⟨k, -, rfl⟩ := hd
    simp [dataFor]

/-- Witness for the amended C2: connections 1 and 2, all writes succeeding. -/
theorem C2_unset_estimate_reported_as_zero_witness :
    (handleMessageUpdates Hub.empty
        [(Env.allOk, registerMsg 1 "alice"), (Env.allOk, registerMsg 2 "bob"),
          (Env.allOk, submitMsg 1 5)]).passes.map (fun p => p.response) =
      [[{ Username := some "alice", PokerPoints := some 0 }],
       [{ Username := some "bob", PokerPoints := some 0 },
        { Username := some "alice", PokerPoints := some 0 }],
       [{ Username := some "bob", PokerPoints := some 0 },
        { Username := some "alice", PokerPoints := some 5 }]] ∧
      (handleMessageUpdates Hub.empty
        [(Env.allOk, registerMsg 1 "alice"), (Env.allOk, registerMsg 2 "bob"),
          (Env.allOk, submitMsg 1 5)]).fault = none :=
  ⟨by decide,
    (C2_unset_estimate_reported_as_zero 1 2 (by decide) Env.allOk Env.allOk Env.allOk
      (fun _ => rfl) (fun _ => rfl)).1⟩

/-- C3, as stated, fails: on the empty hub, Submit of 5 by the unregistered
connection 1 stores the estimate, but the snapshot of the broadcast it triggers
has no entry for connection 1 (it is empty). -/
theorem C3_counterexample :
    (handleMessageUpdates Hub.empty [(Env.allOk, submitMsg 1 5)]).hub.scores.lookup 1 = some 5 ∧
      (handleMessageUpdates Hub.empty [(Env.allOk, submitMsg 1 5)]).passes.map
        (fun p => p.response) = [[]] ∧
      ¬ ∃ p ∈ (handleMessageUpdates Hub.empty [(Env.allOk, submitMsg 1 5)]).passes,
        ∃ d ∈ p.entriesFor 1, d.PokerPoints = some 5 := by
  decide

/-- C3, amended: for every state and every connection `c` without an entry in
`clients`, a Submit of `e` by `c` stores `e` for `c` in `scores` and triggers
one broadcast; `c` is still absent from `clients`, the snapshot of that
broadcast has no entry for `c`, and nothing is written to `c`. -/
theorem C3_submit_before_register (env : Env) (h : Hub) (msg : Message) (e : Int)
    (ht : msg.Type_ = Submit) (hp : msg.Data.PokerPoints = some e)
    (hc : msg.Conn ∉ h.clients) :
    ∃ h1 p, handleMessage env h msg = Except.ok (h1, some p) ∧
      h1.scores.lookup msg.Conn = some e ∧
      msg.Conn ∉ h1.clients ∧
      p.entriesFor msg.Conn = [] ∧
      msg.Conn ∉ p.targets := by
  refine ⟨_, _, handle_submit env h msg e ht hp, ?_, ?_, ?_, ?_⟩
  · rw [send_scores]; exact AList.lookup_insert _
  · rw [← AList.lookup_eq_none, send_lookup]
    simp [AList.lookup_eq_none.mpr hc]
  · rw [send_entriesFor, if_neg hc]
  · rw [send_targets, mem_visit]; exact hc

/-- Witness for the amended C3: connection 1 submits 5 to the empty hub. -/
theorem C3_submit_before_register_witness :
    ∃ h1 p, handleMessage Env.allOk Hub.empty (submitMsg 1 5) = Except.ok (h1, some p) ∧
      h1.scores.lookup (submitMsg 1 5).Conn = some 5 ∧
      (submitMsg 1 5).Conn ∉ h1.clients ∧
      p.entriesFor (submitMsg 1 5).Conn = [] ∧
      (submitMsg 1 5).Conn ∉ p.targets :=
  C3_submit_before_register Env.allOk Hub.empty (submitMsg 1 5) 5 rfl rfl
    (AList.not_mem_empty _)

/-- C4, as stated, fails: with alice holding 3 and bob holding 5, a Clear event
triggers no broadcast and leaves the hub as it was, and the next broadcast
still reports 5 and 3. -/
theorem C4_counterexample :
    (handleMessageUpdates twoSubmitted [(Env.allOk, bareMsg Clear 1)]).passes = [] ∧
      (handleMessageUpdates twoSubmitted [(Env.allOk, bareMsg Clear 1)]).hub = twoSubmitted ∧
      (sendToAllClients Env.allOk
        (handleMessageUpdates twoSubmitted [(Env.allOk, bareMsg Clear 1)]).hub).2.response =
        [{ Username := some "bob", PokerPoints := some 5 },
         { Username := some "alice", PokerPoints := some 3 }] :=
  ⟨by decide, rfl, by decide⟩

/-- C4, amended: for every state, a Clear event changes neither map and
triggers no broadcast, so any later snapshot reports the names and estimates
held before the Clear. -/
theorem C4_clear_changes_nothing (env : Env) (h : Hub) (msg : Message)
    (ht : msg.Type_ = Clear) :
    ∃ h1, handleMessage env h msg = Except.ok (h1, none) ∧
      h1.clients = h.clients ∧ h1.scores = h.scores ∧
      ∀ o, snapshot o h1 = snapshot o h := by
  have h1 : msg.Type_ ≠ Register := by rw [ht]; decide
  have h2 : msg.Type_ ≠ Submit := by rw [ht]; decide
  exact ⟨h, handle_silent env h msg h1 h2, rfl, rfl, fun _ => rfl⟩

/-- Witness for the amended C4: a Clear on the hub holding 3 and 5. -/
theorem C4_clear_changes_nothing_witness :
    ∃ h1, handleMessage Env.allOk twoSubmitted (bareMsg Clear 1) = Except.ok (h1, none) ∧
      h1.clients = twoSubmitted.clients ∧ h1.scores = twoSubmitted.scores ∧
      ∀ o, snapshot o h1 = snapshot o twoSubmitted :=
  C4_clear_changes_nothing Env.allOk twoSubmitted (bareMsg Clear 1) rfl

/-- C5, as stated, fails: on a hub with two registered connections, neither a
Reveal nor a Clear event triggers a broadcast; nothing is written. -/
theorem C5_counterexample :
    twoSubmitted.clients.keys = [2, 1] ∧
      (handleMessageUpdates twoSubmitted [(Env.allOk, bareMsg Reveal 1)]).passes = [] ∧
      (handleMessageUpdates twoSubmitted [(Env.allOk, bareMsg Clear 1)]).passes = [] := by
  decide

/-- C5, amended: for every state, a Register event carrying a username and a
Submit event carrying pokerPoints each end with exactly one broadcast, in which
the snapshot of the updated state is what is written, once, to every
connection of `clients`; a Reveal or Clear event triggers no broadcast and
leaves the state as it is. -/
theorem C5_broadcast_only_after_register_and_submit (env : Env) (h : Hub) (msg : Message) :
    (∀ name, msg.Type_ = Register → msg.Data.Username = some name →
      ∃ h1 p, handleMessage env h msg = Except.ok (h1, some p) ∧
        p.response =
          snapshot env.snapshotOrder { h with clients := h.clients.insert msg.Conn name } ∧
        p.targets.Perm (h.clients.insert msg.Conn name).keys ∧
        ∀ w ∈ p.writes, w.2 = p.response) ∧
    (∀ e, msg.Type_ = Submit → msg.Data.PokerPoints = some e →
      ∃ h1 p, handleMessage env h msg = Except.ok (h1, some p) ∧
        p.response =
          snapshot env.snapshotOrder { h with scores := h.scores.insert msg.Conn e } ∧
        p.targets.Perm h.clients.keys ∧
        ∀ w ∈ p.writes, w.2 = p.response) ∧
    (msg.Type_ = Reveal ∨ msg.Type_ = Clear → handleMessage env h msg = Except.ok (h, none)) := by
  refine ⟨fun name ht hn => ⟨_, _, handle_register env h msg name ht hn, rfl, ?_, ?_⟩,
    fun e ht hp => ⟨_, _, handle_submit env h msg e ht hp, rfl, ?_, ?_⟩, ?_⟩
  · rw [send_targets]; exact env.writeOrder.perm _
  · intro w hw
    rw [send_writes, List.mem_map] at hw
    obtain ⟨k, -, rfl⟩ := hw
    rfl
  · rw [send_targets]; exact env.writeOrder.perm _
  · intro w hw
    rw [send_writes, List.mem_map] at hw
    obtain ⟨k, -, rfl⟩ := hw
    rfl
  · intro ht
    have h1 : msg.Type_ ≠ Register := by rcases ht with ht | ht <;> (rw [ht]; decide)
    have h2 : msg.Type_ ≠ Submit := by rcases ht with ht | ht <;> (rw [ht]; decide)
    exact handle_silent env h msg h1 h2

/-- Witness for the amended C5: connection 3 registers as "carol" on the hub
that holds alice and bob. -/
theorem C5_broadcast_only_after_register_and_submit_witness :
    ∃ h1 p, handleMessage Env.allOk twoSubmitted (registerMsg 3 "carol") =
        Except.ok (h1, some p) ∧
      p.response = snapshot Env.allOk.snapshotOrder
        { twoSubmitted with
          clients := twoSubmitted.clients.insert (registerMsg 3 "carol").Conn "carol" } ∧
      p.targets.Perm (twoSubmitted.clients.insert (registerMsg 3 "carol").Conn "carol").keys ∧
      ∀ w ∈ p.writes, w.2 = p.response :=
  (C5_broadcast_only_after_register_and_submit Env.allOk twoSubmitted
    (registerMsg 3 "carol")).1 "carol" rfl rfl

/-- C6: for every state, an event whose type is none of register, submit,
reveal, clear triggers no broadcast (nothing is written) and leaves `clients`
and `scores` as they were, so the snapshot computed before and after is the
same. -/
theorem C6_unsupported_type_changes_nothing (env : Env) (h : Hub) (msg : Message)
    (hu : msg.Type_ ∉ [Register, Submit, Reveal, Clear]) :
    ∃ h1, handleMessage env h msg = Except.ok (h1, none) ∧
      h1.clients = h.clients ∧ h1.scores = h.scores ∧
      ∀ o, snapshot o h1 = snapshot o h := by
  have h1 : msg.Type_ ≠ Register := fun q => hu (by simp [q])
  have h2 : msg.Type_ ≠ Submit := fun q => hu (by simp [q])
  exact ⟨h, handle_silent env h msg h1 h2, rfl, rfl, fun _ => rfl⟩

/-- Witness for C6: an event of type "foo" on the hub holding 3 and 5. -/
theorem C6_unsupported_type_changes_nothing_witness :
    ∃ h1, handleMessage Env.allOk twoSubmitted (bareMsg "foo" 1) = Except.ok (h1, none) ∧
      h1.clients = twoSubmitted.clients ∧ h1.scores = twoSubmitted.scores ∧
      ∀ o, snapshot o h1 = snapshot o twoSubmitted :=
  C6_unsupported_type_changes_nothing Env.allOk twoSubmitted (bareMsg "foo" 1) (by decide)

/-- C7, as stated, fails: alice (connection 1, estimate 3) is registered and
her write fails.  After the broadcast pass her estimate is still stored in
`scores`, and a later Register event from connection 1 puts her back into the
snapshot of the broadcast it triggers, with that estimate. -/
theorem C7_counterexample :
    1 ∈ twoSubmitted.clients.keys ∧
      (sendToAllClients (Env.failing [1]) twoSubmitted).1.scores.lookup 1 = some 3 ∧
      (handleMessageUpdates (sendToAllClients (Env.failing [1]) twoSubmitted).1
        [(Env.failing [1], registerMsg 1 "alice")]).passes.map (fun p => p.entriesFor 1) =
        [[{ Username := some "alice", PokerPoints := some 3 }]] := by
  decide

/-- C7, amended: for every state and every connection `c` whose write fails in
a broadcast pass, `c` has no entry in `clients` after the pass; while its
writes keep failing `c` has no entry in `clients` after any later events; and
as long as no Register event from `c` follows, `c` appears in the snapshot of
no later broadcast. -/
theorem C7_failed_write_evicts (env : Env) (h : Hub) (c : Conn)
    (hfail : env.writeOk c = false) :
    c ∉ (sendToAllClients env h).1.clients ∧
      (∀ evs : List (Env × Message), (∀ x ∈ evs, x.1.writeOk c = false) →
        c ∉ (handleMessageUpdates (sendToAllClients env h).1 evs).hub.clients) ∧
      (∀ evs : List (Env × Message), (∀ x ∈ evs, ¬ (x.2.Type_ = Register ∧ x.2.Conn = c)) →
        ∀ p ∈ (handleMessageUpdates (sendToAllClients env h).1 evs).passes,
          c ∉ p.order ∧ p.entriesFor c = []) := by
  have hout : c ∉ (sendToAllClients env h).1.clients := send_not_mem env h c (Or.inr hfail)
  refine ⟨hout, fun evs hev => run_evicts c evs _ hev hout, fun evs hev p hp => ?_⟩
  have := run_keeps_out c evs _ hev hout p hp
  exact ⟨this, entriesFor_nil_of_not_mem p c this⟩

/-- Witness for the amended C7: the write to alice (connection 1) fails; bob
then submits 8. -/
theorem C7_failed_write_evicts_witness :
    1 ∈ twoSubmitted.clients.keys ∧
      1 ∉ (sendToAllClients (Env.failing [1]) twoSubmitted).1.clients ∧
      (handleMessageUpdates (sendToAllClients (Env.failing [1]) twoSubmitted).1
        [(Env.failing [1], submitMsg 2 8)]).passes.map (fun p => p.response) =
        [[{ Username := some "bob", PokerPoints := some 8 }]] :=
  ⟨by decide, (C7_failed_write_evicts (Env.failing [1]) twoSubmitted 1 rfl).1, by decide⟩

/-- C8, as stated, fails: bob (connection 2, estimate 5) is in the registry and
his write fails.  The pass closes him and removes his name, but his estimate
is still held afterwards: he is not removed from the registry of names and
estimates. -/
theorem C8_counterexample :
    2 ∈ twoSubmitted.clients.keys ∧
      (Env.failing [2]).writeOk 2 = false ∧
      2 ∈ (sendToAllClients (Env.failing [2]) twoSubmitted).2.closed ∧
      2 ∉ (sendToAllClients (Env.failing [2]) twoSubmitted).1.clients.keys ∧
      (sendToAllClients (Env.failing [2]) twoSubmitted).1.scores.lookup 2 = some 5 := by
  decide

/-- C8, amended: for every state and every assignment of write outcomes, one
broadcast pass attempts exactly one write to every connection that was in
`clients` at its start, each carrying the snapshot, which has one element per
connection of `clients` holding its name and its stored estimate (0 when none
is stored); the connections closed are exactly those whose write failed, and
they are removed from `clients`; every connection whose write succeeded stays
in `clients` with its name unchanged. -/
theorem C8_broadcast_pass (env : Env) (h : Hub) :
    (sendToAllClients env h).2.targets.Perm h.clients.keys ∧
      (∀ c ∈ h.clients, (c, (sendToAllClients env h).2.response) ∈
        (sendToAllClients env h).2.writes) ∧
      (∀ w ∈ (sendToAllClients env h).2.writes, w.2 = (sendToAllClients env h).2.response) ∧
      (sendToAllClients env h).2.response.length = h.clients.keys.length ∧
      (∀ c name, h.clients.lookup c = some name →
        (sendToAllClients env h).2.entriesFor c =
          [{ Username := some name, PokerPoints := some ((h.scores.lookup c).getD 0) }]) ∧
      (∀ c, c ∈ (sendToAllClients env h).2.closed ↔ c ∈ h.clients ∧ env.writeOk c = false) ∧
      (∀ c, env.writeOk c = false → c ∉ (sendToAllClients env h).1.clients) ∧
      (∀ c, env.writeOk c = true →
        (sendToAllClients env h).1.clients.lookup c = h.clients.lookup c) := by
  refine ⟨?_, ?_, ?_, ?_, ?_, ?_, ?_, ?_⟩
  · rw [send_targets]; exact env.writeOrder.perm _
  · intro c hc
    rw [send_writes, List.mem_map]
    exact ⟨c, (mem_visit _ _ _).mpr hc, rfl⟩
  · intro w hw
    rw [send_writes, List.mem_map] at hw
    obtain ⟨k, -, rfl⟩ := hw
    rfl
  · rw [send_response, snapshot, List.length_map]
    exact (env.snapshotOrder.perm _).length_eq
  · intro c name hn
    rw [send_entriesFor, if_pos (AList.lookup_isSome.mp (by rw [hn]; rfl))]
    simp [dataFor, hn]
  · intro c
    rw [send_closed, List.mem_filter, mem_visit]
    simp
  · intro c hc
    exact send_not_mem env h c (Or.inr hc)
  · intro c hc
    rw [send_lookup]
    simp [hc]

/-- Witness for the amended C8: on the hub where alice holds 3 and bob holds
5 the write to bob fails; both are written the same two-element snapshot, bob
is closed and leaves `clients`, alice stays. -/
theorem C8_broadcast_pass_witness :
    (sendToAllClients (Env.failing [2]) twoSubmitted).2.writes =
        [(2, [{ Username := some "bob", PokerPoints := some 5 },
              { Username := some "alice", PokerPoints := some 3 }]),
         (1, [{ Username := some "bob", PokerPoints := some 5 },
              { Username := some "alice", PokerPoints := some 3 }])] ∧
      (sendToAllClients (Env.failing [2]) twoSubmitted).2.closed = [2] ∧
      (sendToAllClients (Env.failing [2]) twoSubmitted).1.clients.keys = [1] ∧
      2 ∉ (sendToAllClients (Env.failing [2]) twoSubmitted).1.clients :=
  ⟨by decide, by decide, by decide,
   (C8_broadcast_pass (Env.failing [2]) twoSubmitted).2.2.2.2.2.2.1 2 rfl⟩

/-- C9 fails on the code: for every state, a register frame without username
and a submit frame without pokerPoints each make the hub panic on a nil
dereference, and the hub loop processes no event after it. -/
theorem C9_nil_field_panics (env : Env) (h : Hub) (c : Conn) (name : Option String)
    (pts : Option Int) (rest : List (Env × Message)) :
    handleMessage env h (Message.mk Register (Data.mk none pts) c) =
        Except.error Fault.nilDereference ∧
      handleMessage env h (Message.mk Submit (Data.mk name none) c) =
        Except.error Fault.nilDereference ∧
      handleMessageUpdates h ((env, Message.mk Register (Data.mk none pts) c) :: rest) =
        { hub := h, passes := [], fault := some Fault.nilDereference } ∧
      handleMessageUpdates h ((env, Message.mk Submit (Data.mk name none) c) :: rest) =
        { hub := h, passes := [], fault := some Fault.nilDereference } := by
  have hne : ¬ Submit = Register := by decide
  refine ⟨?_, ?_, ?_, ?_⟩ <;> simp [handleMessageUpdates, handleMessage, hne]

/-- C10: for every state and every sequence of Submit events carrying
pokerPoints, from any connections in any interleaving, all writes succeeding:
the hub loop processes the whole sequence; afterwards `scores` holds for each
connection the estimate of the last Submit that this connection sent, and for a
connection that sent none what it held before; `clients` (the names) is
unchanged.  N distinct registered connections are a special case. -/
theorem C10_submits_land_on_their_sender (h : Hub) (evs : List (Env × Message))
    (hev : ∀ x ∈ evs, x.2.Type_ = Submit ∧ x.2.Data.PokerPoints ≠ none ∧
      ∀ k, x.1.writeOk k = true) :
    (handleMessageUpdates h evs).fault = none ∧
      (handleMessageUpdates h evs).passes.length = evs.length ∧
      (handleMessageUpdates h evs).hub.clients = h.clients ∧
      ∀ c, (handleMessageUpdates h evs).hub.scores.lookup c =
        match lastSubmitFrom c evs with
        | some e => some e
        | none => h.scores.lookup c := by
  obtain ⟨k1, k2, k3⟩ := run_submits evs h hev
  refine ⟨k1, ?_, k2, k3⟩
  clear k1 k2 k3
  induction evs generalizing h with
  | nil => simp [handleMessageUpdates]
  | cons x evs ih =>
    obtain ⟨env, msg⟩ := x
    obtain ⟨ht, hn, -⟩ := hev (env, msg) (List.mem_cons_self _ _)
    obtain ⟨e, he⟩ := Option.ne_none_iff_exists'.mp hn
    simp only at ht he
    rw [run_cons_ok env msg evs h _ _ (handle_submit env h msg e ht he)]
    simp [ih _ (fun y hy => hev y (List.mem_cons_of_mem _ hy)), Nat.add_comm]

/-- Witness for C10: on the hub where alice holds 3 and bob holds 5, the
interleaving 1 submits 4, 2 submits 6, 1 submits 7 leaves 7 for connection 1
and 6 for connection 2. -/
theorem C10_submits_land_on_their_sender_witness :
    (handleMessageUpdates twoSubmitted
        [(Env.allOk, submitMsg 1 4), (Env.allOk, submitMsg 2 6),
          (Env.allOk, submitMsg 1 7)]).hub.scores.lookup 1 = some 7 ∧
      (handleMessageUpdates twoSubmitted
        [(Env.allOk, submitMsg 1 4), (Env.allOk, submitMsg 2 6),
          (Env.allOk, submitMsg 1 7)]).hub.scores.lookup 2 = some 6 :=
  ⟨(C10_submits_land_on_their_sender twoSubmitted
      [(Env.allOk, submitMsg 1 4), (Env.allOk, submitMsg 2 6), (Env.allOk, submitMsg 1 7)]
      (by simp [submitMsg, Env.allOk, Submit])).2.2.2 1,
   by decide⟩

/-- C11: for every state, connection and name, with all writes succeeding,
applying the same Register event twice leaves `clients` and `scores` exactly
as applying it once does.  The second broadcast sends the snapshot of that
same state: the same entries as the first broadcast, for every connection, in
whatever order its own `range` visits them. -/
theorem C11_register_twice_same_as_once (h : Hub) (msg : Message) (name : String)
    (e1 e2 : Env) (ht : msg.Type_ = Register) (hn : msg.Data.Username = some name)
    (hok1 : ∀ k, e1.writeOk k = true) (hok2 : ∀ k, e2.writeOk k = true) :
    (handleMessageUpdates h [(e1, msg), (e2, msg)]).fault = none ∧
      (handleMessageUpdates h [(e1, msg), (e2, msg)]).hub =
        (handleMessageUpdates h [(e1, msg)]).hub ∧
      ∃ p1 p2, (handleMessageUpdates h [(e1, msg)]).passes = [p1] ∧
        (handleMessageUpdates h [(e1, msg), (e2, msg)]).passes = [p1, p2] ∧
        p1.response = snapshot e1.snapshotOrder (handleMessageUpdates h [(e1, msg)]).hub ∧
        p2.response = snapshot e2.snapshotOrder (handleMessageUpdates h [(e1, msg)]).hub ∧
        p2.response.Perm p1.response ∧
        ∀ k, p2.entriesFor k = p1.entriesFor k := by
  have hins : (AList.insert msg.Conn name (AList.insert msg.Conn name h.clients)) =
      AList.insert msg.Conn name h.clients := AList.insert_insert _
  rw [run_cons_ok e1 msg [(e2, msg)] h _ _ (handle_register e1 h msg name ht hn),
    run_single e1 msg h _ _ (handle_register e1 h msg name ht hn), send_allOk e1 hok1,
    run_single e2 msg _ _ _ (handle_register e2 _ msg name ht hn), send_allOk e2 hok2]
  simp only [hins]
  refine ⟨trivial, trivial, _, _, rfl, rfl, rfl, rfl, ?_, fun k => ?_⟩
  · rw [send_response, send_response]
    exact List.Perm.map _
      ((e2.snapshotOrder.perm _).trans (e1.snapshotOrder.perm _).symm)
  · rw [send_entriesFor, send_entriesFor]

/-- Witness for C11: connection 1 registers as "alice" twice on the empty hub. -/
theorem C11_register_twice_same_as_once_witness :
    (handleMessageUpdates Hub.empty
        [(Env.allOk, registerMsg 1 "alice"), (Env.allOk, registerMsg 1 "alice")]).hub =
      (handleMessageUpdates Hub.empty [(Env.allOk, registerMsg 1 "alice")]).hub ∧
    (handleMessageUpdates Hub.empty
        [(Env.allOk, registerMsg 1 "alice"), (Env.allOk, registerMsg 1 "alice")]).passes.map
        (fun p => p.response) =
      [[{ Username := some "alice", PokerPoints := some 0 }],
       [{ Username := some "alice", PokerPoints := some 0 }]] :=
  ⟨(C11_register_twice_same_as_once Hub.empty (registerMsg 1 "alice") "alice" Env.allOk
      Env.allOk rfl rfl (fun _ => rfl) (fun _ => rfl)).2.1,
   by decide⟩

/-- C12: for every state and every write outcome, a Register event from `c`
carrying `name` stores `name` for `c` in `clients` (whatever was stored before),
changes the name of no other connection and leaves `scores` as it was, and then
broadcasts from that state: the snapshot has exactly one entry for `c`, with
`name` and with the estimate stored for `c` (a stored `e` is reported as `e`).
After the step `scores` is still unchanged, so a missing estimate is still
missing, and `c` holds `name` if the write to it succeeded. -/
theorem C12_register_sets_name_keeps_estimate (env : Env) (h : Hub) (msg : Message)
    (name : String) (ht : msg.Type_ = Register) (hn : msg.Data.Username = some name) :
    ∃ mid h1 p,
      mid.clients.lookup msg.Conn = some name ∧
      (∀ k, k ≠ msg.Conn → mid.clients.lookup k = h.clients.lookup k) ∧
      mid.scores = h.scores ∧
      handleMessage env h msg = Except.ok (h1, some p) ∧
      (h1, p) = sendToAllClients env mid ∧
      p.entriesFor msg.Conn =
        [{ Username := some name, PokerPoints := some ((h.scores.lookup msg.Conn).getD 0) }] ∧
      (∀ e, h.scores.lookup msg.Conn = some e →
        p.entriesFor msg.Conn = [{ Username := some name, PokerPoints := some e }]) ∧
      h1.scores = h.scores ∧
      (env.writeOk msg.Conn = true → h1.clients.lookup msg.Conn = some name) := by
  have hmem : msg.Conn ∈ h.clients.insert msg.Conn name := by
    rw [AList.mem_insert]; exact Or.inl rfl
  have hent : (sendToAllClients env { h with clients := h.clients.insert msg.Conn name }).2.entriesFor
      msg.Conn =
      [{ Username := some name, PokerPoints := some ((h.scores.lookup msg.Conn).getD 0) }] := by
    rw [send_entriesFor, if_pos hmem]
    simp [dataFor, AList.lookup_insert]
  refine ⟨{ h with clients := h.clients.insert msg.Conn name }, _, _, AList.lookup_insert _,
    fun k hk => AList.lookup_insert_ne hk, rfl, handle_register env h msg name ht hn, rfl,
    hent, fun e he => ?_, rfl, fun hok => ?_⟩
  · rw [hent, he]; rfl
  · rw [send_lookup]
    simp [hok, AList.lookup_insert]

/-- Witness for C12: alice (connection 1, estimate 3) registers again as "al";
the broadcast reports al with 3. -/
theorem C12_register_sets_name_keeps_estimate_witness :
    (handleMessageUpdates twoSubmitted [(Env.allOk, registerMsg 1 "al")]).passes.map
        (fun p => p.entriesFor 1) = [[{ Username := some "al", PokerPoints := some 3 }]] ∧
      ∃ mid h1 p,
        mid.clients.lookup (registerMsg 1 "al").Conn = some "al" ∧
        (∀ k, k ≠ (registerMsg 1 "al").Conn →
          mid.clients.lookup k = twoSubmitted.clients.lookup k) ∧
        mid.scores = twoSubmitted.scores ∧
        handleMessage Env.allOk twoSubmitted (registerMsg 1 "al") = Except.ok (h1, some p) ∧
        (h1, p) = sendToAllClients Env.allOk mid ∧
        p.entriesFor (registerMsg 1 "al").Conn =
          [{ Username := some "al",
             PokerPoints := some ((twoSubmitted.scores.lookup (registerMsg 1 "al").Conn).getD 0) }] ∧
        (∀ e, twoSubmitted.scores.lookup (registerMsg 1 "al").Conn = some e →
          p.entriesFor (registerMsg 1 "al").Conn =
            [{ Username := some "al", PokerPoints := some e }]) ∧
        h1.scores = twoSubmitted.scores ∧
        (Env.allOk.writeOk (registerMsg 1 "al").Conn = true →
          h1.clients.lookup (registerMsg 1 "al").Conn = some "al") :=
  ⟨by decide,
   C12_register_sets_name_keeps_estimate Env.allOk twoSubmitted (registerMsg 1 "al") "al"
     rfl rfl⟩

/-- C13, as stated, fails: in the hub where connections 1 and 2 registered as
"alice" and connection 3 only submitted 8, the registry holds the estimate 8
for connection 3, yet the payload has two elements and none for connection 3;
and connection 1, which has no estimate, is reported with 0. -/
theorem C13_counterexample :
    sameName.scores.lookup 3 = some 8 ∧
      (sendToAllClients Env.allOk sameName).2.response.length = 2 ∧
      (sendToAllClients Env.allOk sameName).2.entriesFor 3 = [] ∧
      sameName.scores.lookup 1 = none ∧
      (sendToAllClients Env.allOk sameName).2.entriesFor 1 =
        [{ Username := some "alice", PokerPoints := some 0 }] := by
  decide

/-- C13, amended: for every state, every range order and every write outcome,
the payload of one broadcast pass is one list with exactly one element for each
connection in `clients` at the start of the pass (that connection's name and
its stored estimate, 0 when none is stored) and none for any other connection,
also not for one that only has an estimate stored; every write of the pass, to
each connection of `clients`, carries this same list. -/
theorem C13_one_payload_per_pass (env : Env) (h : Hub) :
    (sendToAllClients env h).2.order.Perm h.clients.keys ∧
      (sendToAllClients env h).2.response = (sendToAllClients env h).2.order.map (dataFor h) ∧
      (sendToAllClients env h).2.response.length = h.clients.keys.length ∧
      (∀ c name, h.clients.lookup c = some name →
        (sendToAllClients env h).2.entriesFor c =
          [{ Username := some name, PokerPoints := some ((h.scores.lookup c).getD 0) }]) ∧
      (∀ c, c ∉ h.clients → (sendToAllClients env h).2.entriesFor c = []) ∧
      (sendToAllClients env h).2.targets.Perm h.clients.keys ∧
      (∀ w ∈ (sendToAllClients env h).2.writes, w.2 = (sendToAllClients env h).2.response) := by
  refine ⟨env.snapshotOrder.perm _, rfl, ?_, ?_, ?_, ?_, ?_⟩
  · rw [send_response, snapshot, List.length_map]
    exact (env.snapshotOrder.perm _).length_eq
  · intro c name hn
    rw [send_entriesFor, if_pos (AList.lookup_isSome.mp (by rw [hn]; rfl))]
    simp [dataFor, hn]
  · intro c hc
    rw [send_entriesFor, if_neg hc]
  · rw [send_targets]; exact env.writeOrder.perm _
  · intro w hw
    rw [send_writes, List.mem_map] at hw
    obtain ⟨k, -, rfl⟩ := hw
    rfl

/-- Witness for the amended C13: on the hub where alice holds 3 and bob holds 5, with the
write to alice failing, both connections are sent the same two-element list. -/
theorem C13_one_payload_per_pass_witness :
    (sendToAllClients (Env.failing [1]) twoSubmitted).2.writes =
        [(2, [{ Username := some "bob", PokerPoints := some 5 },
              { Username := some "alice", PokerPoints := some 3 }]),
         (1, [{ Username := some "bob", PokerPoints := some 5 },
              { Username := some "alice", PokerPoints := some 3 }])] ∧
      (sendToAllClients (Env.failing [1]) twoSubmitted).2.response.length =
        twoSubmitted.clients.keys.length :=
  ⟨by decide, (C13_one_payload_per_pass (Env.failing [1]) twoSubmitted).2.2.1⟩

/-- C14: for every state, event and write outcome, a connection with a stored
estimate before the hub step has after it either the same stored estimate or
the one it has just submitted, and it keeps an entry in `scores` over any
sequence of events, whether or not a failed write evicted it from `clients`. -/
theorem C14_scores_never_shrink (env : Env) (h : Hub) (msg : Message) (c : Conn) (e : Int)
    (hc : h.scores.lookup c = some e) :
    ((handleMessageUpdates h [(env, msg)]).hub.scores.lookup c = some e ∨
      (msg.Type_ = Submit ∧ msg.Conn = c ∧ ∃ e2, msg.Data.PokerPoints = some e2 ∧
        (handleMessageUpdates h [(env, msg)]).hub.scores.lookup c = some e2)) ∧
      ∀ evs : List (Env × Message), c ∈ (handleMessageUpdates h evs).hub.scores := by
  have hmem : c ∈ h.scores := AList.lookup_isSome.mp (by rw [hc]; rfl)
  refine ⟨?_, fun evs => run_scores_mem c evs h hmem⟩
  cases hstep : handleMessage env h msg with
  | error f =>
    left
    simpa [handleMessageUpdates, hstep] using hc
  | ok r =>
    obtain ⟨h1, p⟩ := r
    rw [run_single env msg h h1 p hstep]
    rcases step_scores env h h1 msg p hstep with hs | ⟨ht, e2, he2, hs⟩
    · left; show h1.scores.lookup c = some e
      rw [hs]; exact hc
    · by_cases hcc : msg.Conn = c
      · right
        refine ⟨ht, hcc, e2, he2, ?_⟩
        show h1.scores.lookup c = some e2
        rw [hs, ← hcc]; exact AList.lookup_insert _
      · left
        show h1.scores.lookup c = some e
        rw [hs, AList.lookup_insert_ne (fun q => hcc q.symm)]; exact hc

/-- Witness for C14: bob submits 9 while the write to alice (connection 1,
estimate 3) fails; alice is evicted from `clients` and keeps her 3. -/
theorem C14_scores_never_shrink_witness :
    1 ∈ twoSubmitted.clients.keys ∧
      1 ∉ (handleMessageUpdates twoSubmitted
        [(Env.failing [1], submitMsg 2 9)]).hub.clients.keys ∧
      (handleMessageUpdates twoSubmitted
        [(Env.failing [1], submitMsg 2 9)]).hub.scores.lookup 1 = some 3 ∧
      ((handleMessageUpdates twoSubmitted
          [(Env.failing [1], submitMsg 2 9)]).hub.scores.lookup 1 = some 3 ∨
        ((submitMsg 2 9).Type_ = Submit ∧ (submitMsg 2 9).Conn = 1 ∧
          ∃ e2, (submitMsg 2 9).Data.PokerPoints = some e2 ∧
            (handleMessageUpdates twoSubmitted
              [(Env.failing [1], submitMsg 2 9)]).hub.scores.lookup 1 = some e2)) :=
  ⟨by decide, by decide, by decide,
   (C14_scores_never_shrink (Env.failing [1]) twoSubmitted (submitMsg 2 9) 1 3
     (by decide)).1⟩

/-- C15: for every state, the snapshot of a broadcast has as many entries as
`clients` has connections: exactly one for each connection of `clients` and
none for a connection that is only in `scores`.  Two different connections
registered under the same name each have their own entry, so that name occurs
at least twice in the snapshot. -/
theorem C15_one_entry_per_connection (env : Env) (h : Hub) :
    (sendToAllClients env h).2.response.length = h.clients.keys.length ∧
      (∀ c, c ∈ h.clients → (sendToAllClients env h).2.entriesFor c = [dataFor h c]) ∧
      (∀ c, c ∈ h.scores → c ∉ h.clients →
        c ∉ (sendToAllClients env h).2.order ∧ (sendToAllClients env h).2.entriesFor c = []) ∧
      (∀ a b name, a ≠ b → h.clients.lookup a = some name → h.clients.lookup b = some name →
        ((sendToAllClients env h).2.entriesFor a).length = 1 ∧
        ((sendToAllClients env h).2.entriesFor b).length = 1 ∧
        2 ≤ ((sendToAllClients env h).2.response.filter
          (fun d => d.Username = some name)).length) := by
  refine ⟨?_, ?_, ?_, ?_⟩
  · rw [send_response, snapshot, List.length_map]
    exact (env.snapshotOrder.perm _).length_eq
  · intro c hc
    rw [send_entriesFor, if_pos hc]
  · intro c _ hc
    refine ⟨?_, ?_⟩
    · rw [send_order, mem_visit]; exact hc
    · rw [send_entriesFor, if_neg hc]
  · intro a b name hab ha hb
    have hma : a ∈ h.clients := AList.lookup_isSome.mp (by rw [ha]; rfl)
    have hmb : b ∈ h.clients := AList.lookup_isSome.mp (by rw [hb]; rfl)
    refine ⟨?_, ?_, ?_⟩
    · rw [send_entriesFor, if_pos hma]; rfl
    · rw [send_entriesFor, if_pos hmb]; rfl
    · rw [send_response, snapshot, ← List.countP_eq_length_filter, List.countP_map]
      apply two_le_countP _ a b hab _ _ _ ((mem_visit _ _ _).mpr hma) ((mem_visit _ _ _).mpr hmb)
      · simp [dataFor, ha]
      · simp [dataFor, hb]

/-- Witness for C15: connections 1 and 2 are both "alice" and connection 3 is
only in `scores`; the snapshot is two alice entries. -/
theorem C15_one_entry_per_connection_witness :
    sameName.clients.keys = [2, 1] ∧ sameName.scores.keys = [3] ∧
      (sendToAllClients Env.allOk sameName).2.response =
        [{ Username := some "alice", PokerPoints := some 0 },
         { Username := some "alice", PokerPoints := some 0 }] ∧
      (sendToAllClients Env.allOk sameName).2.response.length = sameName.clients.keys.length :=
  ⟨by decide, by decide, by decide, (C15_one_entry_per_connection Env.allOk sameName).1⟩

end Poker
